import Mathlib

set_option maxHeartbeats 1000000

/-!
Shallow embedding of the resource aggregation and query engine of the
aws-resource-inventory-dashboard repository.

The embedded code:
- `ResourceCollector` (src/unnamed/part_003): per-service fetch wrappers,
  normalization of provider records, tag extraction.
- `ResourceController` (src/backend/src/controllers/ResourceController.ts):
  query filtering, pagination, summary, and `storeResourceCollection`.
- `simple-server.js` (src/backend/simple-server.js): the in-memory
  query/summary/refresh endpoints.

JavaScript objects used as maps are modelled as association lists with
assign-in-place semantics; `parseInt` and `Array.prototype.slice` are
modelled with their ECMAScript clamping behavior (NaN is `Option.none`).
-/

/-- The uniform resource record (BaseResource in src/unnamed/part_005).
This is also the shape of a row of the Sequelize Resource model (second
document of src/backend/src/models/Account.ts, lines 85-187) as written
by `ResourceController.storeResourceCollection`. Only the uniform fields
are modelled; the type-specific attribute bag and the `metadata` JSON
column are not consulted by any claim. `lastUpdated` is an abstract
timestamp. -/
structure Resource where
  id : String
  accountId : String
  region : String
  resourceType : String
  name : String
  arn : String
  tags : List (String × String)
  status : String
  lastUpdated : Nat
  deriving DecidableEq, Repr

/-- A provider tag entry as delivered by the AWS SDK: both fields are
optional (undefined in JavaScript). -/
structure ProviderTag where
  Key : Option String
  Value : Option String
  deriving DecidableEq, Repr

/-- Assignment m[k] = v on a JavaScript object modelled as an association
list: overwrite in place when the key exists, otherwise append. -/
def objAssign (m : List (String × String)) (k v : String) :
    List (String × String) :=
  if m.any (fun p => p.1 == k) then
    m.map (fun p => if p.1 == k then (k, v) else p)
  else m ++ [(k, v)]

/-- Property read m[k] on a JavaScript object modelled as an association
list. -/
def objGet (m : List (String × String)) (k : String) : Option String :=
  (m.find? (fun p => p.1 == k)).map (fun p => p.2)

/-- One iteration of the ResourceCollector.extractTags loop
(src/unnamed/part_003 lines 400-404): the tag is kept only when
`tag.Key && tag.Value` is truthy, i.e. both are present and non-empty
strings. -/
def tagStep (m : List (String × String)) (t : ProviderTag) :
    List (String × String) :=
  match t.Key, t.Value with
  | some k, some v => if k != "" && v != "" then objAssign m k v else m
  | _, _ => m

/-- ResourceCollector.extractTags (src/unnamed/part_003 lines 396-408):
iterates the tag list with `tagStep`; a missing list gives the empty map. -/
def extractTags (tags : Option (List ProviderTag)) : List (String × String) :=
  match tags with
  | none => []
  | some ts => ts.foldl tagStep []

/-- Does the association list have an entry for key k. -/
def hasKey (m : List (String × String)) (k : String) : Bool :=
  m.any (fun p => p.1 == k)

/-- Is the first character list a prefix of the second (character-exact). -/
def isPrefOf : List Char → List Char → Bool
  | [], _ => true
  | _ :: _, [] => false
  | a :: as, b :: bs => a == b && isPrefOf as bs

/-- Does the second character list contain the first as a contiguous run. -/
def hasSub (sub : List Char) : List Char → Bool
  | [] => sub.isEmpty
  | c :: rest => isPrefOf sub (c :: rest) || hasSub sub rest

/-- Case-insensitive substring test: the denotation of Sequelize
`iLike %pat%` in ResourceController.getResources and of
`haystack.toLowerCase().includes(pat.toLowerCase())` in simple-server.js. -/
def containsCI (haystack pat : String) : Bool :=
  hasSub pat.toLower.data haystack.toLower.data

/-- FilterOptions as read from the query string by
ResourceController.getResources: every field optional, absent meaning no
constraint. -/
structure FilterOptions where
  accountIds : Option (List String)
  regions : Option (List String)
  resourceTypes : Option (List String)
  statuses : Option (List String)
  search : Option String

/-- Denotation of one `Op.in` clause: absent field matches everything,
otherwise any listed value may match (OR within the field). -/
def inField (field : Option (List String)) (x : String) : Bool :=
  match field with
  | none => true
  | some vs => vs.contains x

/-- Denotation of the `Op.or` search clause of
ResourceController.getResources (lines 47-53): case-insensitive substring
match against name, arn, or id. -/
def searchMatch (search : Option String) (r : Resource) : Bool :=
  match search with
  | none => true
  | some s => containsCI r.name s || containsCI r.arn s || containsCI r.id s

/-- Denotation of the whereClause built by ResourceController.getResources
(lines 24-53): populated fields are combined with AND. -/
def matchesWhere (f : FilterOptions) (r : Resource) : Bool :=
  inField f.accountIds r.accountId &&
  inField f.regions r.region &&
  inField f.resourceTypes r.resourceType &&
  inField f.statuses r.status &&
  searchMatch f.search r

/-- The set of persisted resources matching a filter: the rows
findAndCountAll counts and pages over in ResourceController.getResources. -/
def filterResources (f : FilterOptions) (rs : List Resource) : List Resource :=
  rs.filter (matchesWhere f)

/-- The filter chain of simple-server.js GET /api/resources (lines 44-68):
sequential filters for accountIds, regions, resourceTypes, then the
case-insensitive search over name, id, arn. This endpoint reads no
statuses parameter. -/
def ssApplyFilters (accountIds regions resourceTypes : Option (List String))
    (search : Option String) (rs : List Resource) : List Resource :=
  let f1 := match accountIds with
    | none => rs
    | some xs => rs.filter (fun r => xs.contains r.accountId)
  let f2 := match regions with
    | none => f1
    | some xs => f1.filter (fun r => xs.contains r.region)
  let f3 := match resourceTypes with
    | none => f2
    | some xs => f2.filter (fun r => xs.contains r.resourceType)
  match search with
  | none => f3
  | some s => f3.filter (fun r =>
      containsCI r.name s || containsCI r.id s || containsCI r.arn s)

/-- Value of the maximal digit prefix of a character list, or none when it
is empty (the NaN case of parseInt). -/
def digitsPrefixVal : List Char → Option Nat → Option Nat
  | [], acc => acc
  | c :: cs, acc =>
      if c.isDigit then
        digitsPrefixVal cs (some ((acc.getD 0) * 10 + (c.toNat - 48)))
      else acc

/-- JavaScript parseInt on a base-10 string as the endpoints use it: an
optional sign followed by a maximal digit prefix; none models NaN. -/
def jsParseInt (s : String) : Option Int :=
  match s.data with
  | '-' :: rest => (digitsPrefixVal rest none).map (fun n => -(n : Int))
  | cs => digitsPrefixVal cs none

/-- NaN-propagating addition of parseInt results. -/
def jsAdd : Option Int → Option Int → Option Int
  | some a, some b => some (a + b)
  | _, _ => none

/-- ECMAScript Array.prototype.slice index conversion for a list of the
given length: NaN becomes 0, negative indices count from the end, and
indices clamp to [0, length]. -/
def jsSliceIndex (len : Nat) : Option Int → Nat
  | none => 0
  | some v => if v < 0 then len - (-v).toNat else min v.toNat len

/-- ECMAScript Array.prototype.slice with possibly-NaN bounds. -/
def jsSlice (l : List α) (s e : Option Int) : List α :=
  (l.take (jsSliceIndex l.length e)).drop (jsSliceIndex l.length s)

/-- Shape of the JSON body simple-server.js sends back from
GET /api/resources; success is the literal `success` flag of the
response (the endpoint has no error branch, so no validation error can be
signalled). -/
structure ApiResult where
  success : Bool
  resources : List Resource
  total : Nat
  limit : Option Int
  offset : Option Int
  hasMore : Bool
  deriving DecidableEq, Repr

/-- simple-server.js GET /api/resources (lines 41-85): applies the filter
chain, then pages with slice(parseInt(offset), parseInt(offset) +
parseInt(limit)); hasMore is filtered.length > parseInt(offset) +
parseInt(limit), which is false whenever either parse is NaN. -/
def ssGetResources (accountIds regions resourceTypes : Option (List String))
    (search : Option String) (limitStr offsetStr : String)
    (rs : List Resource) : ApiResult :=
  let filtered := ssApplyFilters accountIds regions resourceTypes search rs
  let oInt := jsParseInt offsetStr
  let lInt := jsParseInt limitStr
  let paginated := jsSlice filtered oInt (jsAdd oInt lInt)
  let hasMore := match jsAdd oInt lInt with
    | none => false
    | some v => decide ((filtered.length : Int) > v)
  ApiResult.mk true paginated filtered.length lInt oInt hasMore

/-- Increment m[k] = (m[k] || 0) + 1 on a JavaScript object used as a
counter, as simple-server.js GET /api/resources/summary does. -/
def objIncr (m : List (String × Nat)) (k : String) : List (String × Nat) :=
  if m.any (fun p => p.1 == k) then
    m.map (fun p => if p.1 == k then (p.1, p.2 + 1) else p)
  else m ++ [(k, 1)]

/-- Grouped counts over a list by a string key, in the first-seen order a
JavaScript object keeps. -/
def countBy (key : Resource → String) (rs : List Resource) :
    List (String × Nat) :=
  rs.foldl (fun m r => objIncr m (key r)) []

/-- Reading a count out of the Object.entries list: 0 when absent. -/
def countGet (m : List (String × Nat)) (k : String) : Nat :=
  match m.find? (fun p => p.1 == k) with
  | some p => p.2
  | none => 0

/-- Shape of the summary body of simple-server.js
GET /api/resources/summary. -/
structure SummaryResult where
  total : Nat
  byType : List (String × Nat)
  byStatus : List (String × Nat)
  byRegion : List (String × Nat)
  deriving DecidableEq, Repr

/-- simple-server.js GET /api/resources/summary (lines 88-118): filters by
accountIds only, then counts per distinct resourceType, status and region
value. -/
def ssGetSummary (accountIds : Option (List String)) (rs : List Resource) :
    SummaryResult :=
  let filtered := match accountIds with
    | none => rs
    | some xs => rs.filter (fun r => xs.contains r.accountId)
  SummaryResult.mk filtered.length
    (countBy (fun r => r.resourceType) filtered)
    (countBy (fun r => r.status) filtered)
    (countBy (fun r => r.region) filtered)

/-- The summary the server produces for a request carrying a full filter:
only the accountIds field is read; regions, resourceTypes, statuses and
search are ignored by the endpoint (simple-server.js line 89, and
equally ResourceController.getResourceSummary lines 184-190). -/
def summaryForFilter (f : FilterOptions) (rs : List Resource) :
    SummaryResult :=
  ssGetSummary f.accountIds rs

/-- A recorded per-service failure (CollectionError in src/unnamed/part_005):
service, region, message, timestamp. -/
structure CollectionError where
  service : String
  region : String
  error : String
  timestamp : Nat
  deriving DecidableEq, Repr

/-- A collection snapshot (ResourceCollection in src/unnamed/part_005):
per-type resource lists plus the collection errors. The nested
`resources` object is flattened into one field per type, in the insertion
order Object.values observes: ec2, rds, s3, ecs, eks, vpc. -/
structure ResourceCollection where
  accountId : String
  ec2 : List Resource
  rds : List Resource
  s3 : List Resource
  ecs : List Resource
  eks : List Resource
  vpc : List Resource
  errors : List CollectionError
  deriving DecidableEq, Repr

/-- Object.values(collection.resources).flat() as used by
ResourceController.storeResourceCollection (line 399). -/
def allResources (c : ResourceCollection) : List Resource :=
  c.ec2 ++ c.rds ++ c.s3 ++ c.ecs ++ c.eks ++ c.vpc

/-- Replace the lastUpdated stamp of a resource row, as the upsert of
storeResourceCollection does with `lastUpdated: new Date()`. -/
def withLastUpdated (r : Resource) (now : Nat) : Resource :=
  Resource.mk r.id r.accountId r.region r.resourceType r.name r.arn
    r.tags r.status now

/-- Sequelize Resource.upsert against the Resource model defined in the
second document of src/backend/src/models/Account.ts (lines 85-187): id
is the primary key (Resource.init, lines 120-124) and arn carries a
unique constraint (lines 141-145, repeated as a unique index at lines
178-181). The upsert's conflict target is the primary key, so a row with
the supplied id is updated in place and otherwise a new row is inserted;
if the written arn duplicates another row's arn, the unique arn index is
violated and the upsert throws a unique-constraint error instead of
completing. In no case is a row deleted. -/
def upsertRow (store : List Resource) (r : Resource) :
    Except String (List Resource) :=
  if store.any (fun x => x.id == r.id) then
    if store.any (fun x => x.id != r.id && x.arn == r.arn) then
      Except.error "SequelizeUniqueConstraintError: arn must be unique"
    else
      Except.ok (store.map (fun x => if x.id == r.id then r else x))
  else
    if store.any (fun x => x.arn == r.arn) then
      Except.error "SequelizeUniqueConstraintError: arn must be unique"
    else Except.ok (store ++ [r])

/-- The awaited upsert loop of ResourceController.storeResourceCollection
(lines 401-414) over the flattened resource list: each resource is
upserted with a fresh lastUpdated stamp; a thrown constraint error stops
the loop, leaving the rows upserted so far in place (there is no
transaction), and propagates to the caller's catch. -/
def storeLoop (rs : List Resource) (store : List Resource) (now : Nat) :
    List Resource × Option String :=
  match rs with
  | [] => (store, none)
  | r :: rest =>
      match upsertRow store (withLastUpdated r now) with
      | Except.ok st2 => storeLoop rest st2 now
      | Except.error e => (store, some e)

/-- ResourceController.storeResourceCollection (lines 398-415): flattens
the snapshot's per-type lists and runs the upsert loop. It returns the
resulting persisted rows together with the thrown error, if any; the
loop performs no deletion of any kind. -/
def storeResourceCollection (store : List Resource)
    (c : ResourceCollection) (now : Nat) : List Resource × Option String :=
  storeLoop (allResources c) store now

/-- The resource replacement step of simple-server.js
POST /api/resources/refresh (lines 417-419): drop every persisted
resource of the refreshed account, then append the freshly collected
ones. The filter is by account only, regardless of which service fetches
failed in the cycle. -/
def ssMergeAccount (resources : List Resource) (accountId : String)
    (accountResources : List Resource) : List Resource :=
  resources.filter (fun r => r.accountId != accountId) ++ accountResources

/-- Outcome of a fetch whose body is wrapped in an internal try/catch
(collectECSResources, collectEKSResources, collectVPCResources in
src/unnamed/part_003): the resources gathered before any failure, plus
the swallowed failure message if one occurred. The function returns
`gathered` either way and never throws. -/
structure SwallowedFetch where
  gathered : List Resource
  failure : Option String
  deriving DecidableEq, Repr

/-- ResourceCollector.collectAllResources (src/unnamed/part_003 lines
55-109). The ec2, rds and s3 fetchers can throw, so their promise is
wrapped with a .catch that records one CollectionError and substitutes
the empty list. The ecs, eks and vpc fetchers catch internally: they
resolve with whatever was gathered and the outer .catch never fires, so
no CollectionError is recorded for them. -/
def collectAllResources (accountId region : String) (ts : Nat)
    (ec2 rds s3 : Except String (List Resource))
    (ecs eks vpc : SwallowedFetch) : ResourceCollection :=
  let fetched := fun (o : Except String (List Resource)) =>
    match o with
    | Except.ok l => l
    | Except.error _ => []
  let errFor := fun (svc : String) (o : Except String (List Resource)) =>
    match o with
    | Except.ok _ => ([] : List CollectionError)
    | Except.error e => [CollectionError.mk svc region e ts]
  ResourceCollection.mk accountId
    (fetched ec2) (fetched rds) (fetched s3)
    ecs.gathered eks.gathered vpc.gathered
    (errFor "ec2" ec2 ++ errFor "rds" rds ++ errFor "s3" s3)

/-- The fields of a DescribeInstances record consulted by
ResourceCollector.collectEC2Resources. -/
structure EC2Instance where
  InstanceId : Option String
  Tags : Option (List ProviderTag)
  StateName : Option String
  deriving DecidableEq, Repr

/-- Normalization of one EC2 instance by
ResourceCollector.collectEC2Resources (src/unnamed/part_003 lines
125-151): a record without InstanceId is dropped; the identifier is the
raw InstanceId; name falls back from the Name tag to the InstanceId; the
arn interpolates region and account. Only the uniform fields are
modelled. -/
def collectEC2Normalize (accountId region : String) (now : Nat)
    (inst : EC2Instance) : Option Resource :=
  match inst.InstanceId with
  | none => none
  | some iid =>
      let tags := extractTags inst.Tags
      let name := match objGet tags "Name" with
        | some n => n
        | none => iid
      some (Resource.mk iid accountId region "ec2" name
        ("arn:aws:ec2:" ++ region ++ ":" ++ accountId ++ ":instance/" ++ iid)
        tags (inst.StateName.getD "unknown") now)

/-- The fields of a DescribeDBInstances record consulted by
ResourceCollector.collectRDSResources. -/
structure DBInstance where
  DBInstanceIdentifier : Option String
  TagList : Option (List ProviderTag)
  DBInstanceArn : Option String
  DBInstanceStatus : Option String
  deriving DecidableEq, Repr

/-- Normalization of one RDS instance by
ResourceCollector.collectRDSResources (src/unnamed/part_003 lines
170-194): the identifier and the name are the raw DBInstanceIdentifier;
the arn is the provider arn or empty. -/
def collectRDSNormalize (accountId region : String) (now : Nat)
    (db : DBInstance) : Option Resource :=
  match db.DBInstanceIdentifier with
  | none => none
  | some did =>
      some (Resource.mk did accountId region "rds" did
        (db.DBInstanceArn.getD "") (extractTags db.TagList)
        (db.DBInstanceStatus.getD "unknown") now)

/-- Fixture: an ec2 resource of account 111111111111, updated at time 1. -/
def resA : Resource :=
  Resource.mk "i-a" "111111111111" "us-east-1" "ec2" "web-a" "arn:a" []
    "running" 1

/-- Fixture: an ec2 resource of account 111111111111, updated at time 2. -/
def resB : Resource :=
  Resource.mk "i-b2" "111111111111" "us-east-1" "ec2" "web-b" "arn:b" []
    "running" 2

/-- Fixture: a resource in region us-west-2. -/
def resW : Resource :=
  Resource.mk "i-w" "111111111111" "us-west-2" "ec2" "web-w" "arn:w" []
    "running" 4

/-- Fixture: a previously persisted ec2 row that the next successful ec2
snapshot no longer lists. -/
def rowIB : Resource :=
  Resource.mk "i-b" "111111111111" "us-east-1" "ec2" "web-b" "arn:b" []
    "running" 1

/-- Fixture: the only ec2 instance reported by the new snapshot. -/
def resIA : Resource :=
  Resource.mk "i-a" "111111111111" "us-east-1" "ec2" "web-a" "arn:a" []
    "running" 3

/-- Fixture: a snapshot for account 111111111111 whose ec2 fetch succeeded
(no collection errors) listing only resIA. -/
def snapEc2Ok : ResourceCollection :=
  ResourceCollection.mk "111111111111" [resIA] [] [] [] [] [] []

/-- Fixture: a previously persisted rds row. -/
def rowDB : Resource :=
  Resource.mk "db-1" "111111111111" "us-east-1" "rds" "db-1" "arn:db" []
    "available" 1

/-- Fixture: an ec2 resource whose provider-native identifier happens to
equal the persisted rds row's identifier. -/
def ec2Clash : Resource :=
  Resource.mk "db-1" "111111111111" "us-east-1" "ec2" "clash" "arn:c" []
    "running" 3

/-- Fixture: the collection error recorded for a failed rds fetch. -/
def rdsErr : CollectionError :=
  CollectionError.mk "rds" "us-east-1" "timeout" 0

/-- Fixture: a snapshot whose rds fetch failed while the ec2 fetch
succeeded with a resource whose id collides with the persisted rds row. -/
def snapRdsFail : ResourceCollection :=
  ResourceCollection.mk "111111111111" [ec2Clash] [] [] [] [] [] [rdsErr]

/-- Fixture: a snapshot whose rds fetch failed while the ec2 fetch
succeeded with a non-colliding resource. -/
def snapRdsFailSafe : ResourceCollection :=
  ResourceCollection.mk "111111111111" [resIA] [] [] [] [] [] [rdsErr]

/-- Fixture: a provider EC2 record with no tags. -/
def inst0 : EC2Instance :=
  EC2Instance.mk (some "i-0abc123") none (some "running")

/-- Fixture: inst0 normalized under account 111111111111. -/
def resN1 : Resource :=
  Resource.mk "i-0abc123" "111111111111" "us-east-1" "ec2" "i-0abc123"
    "arn:aws:ec2:us-east-1:111111111111:instance/i-0abc123" [] "running" 0

/-- Fixture: inst0 normalized under account 222222222222. -/
def resN2 : Resource :=
  Resource.mk "i-0abc123" "222222222222" "us-east-1" "ec2" "i-0abc123"
    "arn:aws:ec2:us-east-1:222222222222:instance/i-0abc123" [] "running" 0

/-- Fixture: a persisted set of three resources. -/
def rs3 : List Resource := [resA, resB, resW]

/-- Fixture: a filter populating only the regions field. -/
def f7 : FilterOptions :=
  FilterOptions.mk none (some ["us-east-1"]) none none none

theorem objGet_isSome_eq_hasKey (m : List (String × String)) (k : String) :
    (objGet m k).isSome = hasKey m k := by
  induction m with
  | nil => rfl
  | cons p rest ih =>
      by_cases h : p.1 == k
      · simp [objGet, hasKey, List.find?, h]
      · simp only [objGet, hasKey, List.find?, List.any_cons, h,
          Bool.false_or] at ih ⊢
        exact ih

theorem hasKey_objAssign (m : List (String × String)) (k v k2 : String) :
    hasKey (objAssign m k v) k2 = (hasKey m k2 || (k == k2)) := by
  unfold objAssign hasKey
  by_cases hmem : m.any (fun p => p.1 == k)
  · simp only [hmem, if_pos, List.any_map]
    by_cases hk : k = k2
    · subst hk
      simp only [Bool.or_true, beq_self_eq_true]
      rw [List.any_eq_true] at hmem ⊢
      obtain ⟨p, hp, hpk⟩ := hmem
      refine ⟨p, hp, ?_⟩
      simp only [Function.comp]
      rw [if_pos hpk]
      exact beq_self_eq_true k
    · have hkk2 : (k == k2) = false := by
        exact beq_eq_false_iff_ne.mpr hk
      simp only [hkk2, Bool.or_false]
      congr 1
      funext p
      simp only [Function.comp]
      by_cases hpk : p.1 == k
      · rw [if_pos hpk]
        have : p.1 = k := eq_of_beq hpk
        simp [hkk2, this, beq_eq_false_iff_ne.mpr hk]
      · rw [if_neg hpk]
  · simp only [hmem, if_neg, Bool.false_eq_true, not_false_eq_true,
      List.any_append, hasKey]
    simp [List.any_cons]

theorem hasKey_tagStep (m : List (String × String)) (t : ProviderTag)
    (k : String) :
    hasKey (tagStep m t) k = true ↔
      hasKey m k = true ∨
        (t.Key = some k ∧ k ≠ "" ∧ ∃ v, t.Value = some v ∧ v ≠ "") := by
  obtain ⟨tk, tv⟩ := t
  cases tk with
  | none => simp [tagStep]
  | some kk =>
      cases tv with
      | none => simp [tagStep]
      | some vv =>
          by_cases hcond : (kk != "" && vv != "") = true
          · have hand := Bool.and_eq_true_iff.mp hcond
            have hkk : kk ≠ "" := by
              simpa [bne_iff_ne] using hand.1
            have hvv : vv ≠ "" := by
              simpa [bne_iff_ne] using hand.2
            simp only [tagStep, hcond, if_true, hasKey_objAssign,
              Bool.or_eq_true_iff]
            constructor
            · rintro (h | h)
              · exact Or.inl h
              · have : kk = k := eq_of_beq h
                subst this
                exact Or.inr ⟨rfl, hkk, vv, rfl, hvv⟩
            · rintro (h | ⟨hk, hne, v, hv, hvne⟩)
              · exact Or.inl h
              · cases hk
                exact Or.inr (beq_self_eq_true _)
          · have : ¬ (kk ≠ "" ∧ vv ≠ "") := by
              intro hcontra
              exact hcond (by simp [bne_iff_ne, hcontra.1, hcontra.2])
            simp only [tagStep, if_neg hcond]
            constructor
            · exact Or.inl
            · rintro (h | ⟨hk, hne, v, hv, hvne⟩)
              · exact h
              · cases hk
                cases hv
                exact absurd ⟨hne, hvne⟩ this

theorem hasKey_extractTags_fold (ts : List ProviderTag)
    (m : List (String × String)) (k : String) :
    hasKey (ts.foldl tagStep m) k = true ↔
      hasKey m k = true ∨
        ∃ t ∈ ts, t.Key = some k ∧ k ≠ "" ∧
          ∃ v, t.Value = some v ∧ v ≠ "" := by
  induction ts generalizing m with
  | nil => simp
  | cons t rest ih =>
      simp only [List.foldl_cons, List.mem_cons]
      rw [ih, hasKey_tagStep]
      constructor
      · rintro ((hm | ht) | ⟨t2, ht2, h2⟩)
        · exact Or.inl hm
        · exact Or.inr ⟨t, Or.inl rfl, ht⟩
        · exact Or.inr ⟨t2, Or.inr ht2, h2⟩
      · rintro (hm | ⟨t2, (rfl | ht2), h2⟩)
        · exact Or.inl (Or.inl hm)
        · exact Or.inl (Or.inr h2)
        · exact Or.inr ⟨t2, ht2, h2⟩

theorem mem_objAssign (m : List (String × String)) (k v : String)
    (q : String × String) (hq : q ∈ objAssign m k v) :
    q ∈ m ∨ q = (k, v) := by
  unfold objAssign at hq
  by_cases h : m.any (fun p => p.1 == k)
  · rw [if_pos h] at hq
    rcases List.mem_map.mp hq with ⟨p, hp, hfp⟩
    by_cases hpk : p.1 == k
    · rw [if_pos hpk] at hfp
      exact Or.inr hfp.symm
    · rw [if_neg hpk] at hfp
      exact Or.inl (hfp ▸ hp)
  · rw [if_neg h] at hq
    rcases List.mem_append.mp hq with hm | hs
    · exact Or.inl hm
    · exact Or.inr (List.mem_singleton.mp hs)

theorem mem_tagStep (m : List (String × String)) (t : ProviderTag)
    (q : String × String) (hq : q ∈ tagStep m t) :
    q ∈ m ∨
      (t.Key = some q.1 ∧ t.Value = some q.2 ∧ q.1 ≠ "" ∧ q.2 ≠ "") := by
  obtain ⟨tk, tv⟩ := t
  cases tk with
  | none => exact Or.inl hq
  | some kk =>
      cases tv with
      | none => exact Or.inl hq
      | some vv =>
          by_cases hcond : (kk != "" && vv != "") = true
          · simp only [tagStep, hcond, if_true] at hq
            rcases mem_objAssign m kk vv q hq with hm | hqe
            · exact Or.inl hm
            · subst hqe
              have hand := Bool.and_eq_true_iff.mp hcond
              refine Or.inr ⟨rfl, rfl, ?_, ?_⟩
              · simpa [bne_iff_ne] using hand.1
              · simpa [bne_iff_ne] using hand.2
          · simp only [tagStep, if_neg hcond] at hq
            exact Or.inl hq

theorem mem_extractTags_fold (ts : List ProviderTag)
    (m : List (String × String)) (q : String × String)
    (hq : q ∈ ts.foldl tagStep m) :
    q ∈ m ∨
      ∃ t ∈ ts, t.Key = some q.1 ∧ t.Value = some q.2 ∧
        q.1 ≠ "" ∧ q.2 ≠ "" := by
  induction ts generalizing m with
  | nil => exact Or.inl hq
  | cons t rest ih =>
      simp only [List.foldl_cons] at hq
      rcases ih (tagStep m t) hq with hstep | ⟨t2, ht2, h2⟩
      · rcases mem_tagStep m t q hstep with hm | ht
        · exact Or.inl hm
        · exact Or.inr ⟨t, List.mem_cons_self t rest, ht⟩
      · exact Or.inr ⟨t2, List.mem_cons_of_mem t ht2, h2⟩

/-- C10: tag extraction during normalization keeps exactly the entries
whose Key and Value are both present and non-empty strings; a tag whose
value is the empty string is omitted from the normalized tag map, and a
missing or empty tag list yields an empty map. Stated for
`ResourceCollector.extractTags`: a key is bound in the produced map
exactly when some provider tag carries it with a non-empty key and a
non-empty value; every binding in the map comes from such a tag; and the
missing and empty lists produce the empty map. -/
theorem C10_extractTags_exact (tags : Option (List ProviderTag))
    (k : String) :
    ((objGet (extractTags tags) k).isSome = true ↔
        ∃ ts, tags = some ts ∧
          ∃ t ∈ ts, t.Key = some k ∧ k ≠ "" ∧
            ∃ v, t.Value = some v ∧ v ≠ "") ∧
      (∀ v, objGet (extractTags tags) k = some v →
        ∃ ts, tags = some ts ∧
          ∃ t ∈ ts, t.Key = some k ∧ t.Value = some v ∧
            k ≠ "" ∧ v ≠ "") ∧
      extractTags none = [] ∧ extractTags (some []) = [] := by
  refine ⟨?_, ?_, rfl, rfl⟩
  · cases tags with
    | none => simp [extractTags, objGet]
    | some ts =>
        rw [objGet_isSome_eq_hasKey]
        unfold extractTags
        rw [hasKey_extractTags_fold]
        simp [hasKey]
  · intro v hv
    cases tags with
    | none => simp [extractTags, objGet] at hv
    | some ts =>
        have hmem : (k, v) ∈ extractTags (some ts) := by
          have hfind := Option.map_eq_some'.mp hv
          rcases hfind with ⟨p, hp, hpv⟩
          have hpk : (p.1 == k) = true := by
            simpa using List.find?_some hp
          have hpmem : p ∈ extractTags (some ts) :=
            List.mem_of_find?_eq_some hp
          have : p = (k, v) := by
            obtain ⟨p1, p2⟩ := p
            simp only at hpv
            have : p1 = k := eq_of_beq hpk
            simp [this, hpv]
          exact this ▸ hpmem
        unfold extractTags at hmem
        rcases mem_extractTags_fold ts [] (k, v) hmem with hnil | ⟨t, ht, h⟩
        · simp at hnil
        · exact ⟨ts, rfl, t, ht, h.1, h.2.1, h.2.2.1, h.2.2.2⟩

/-- Concrete instantiation of C10_extractTags_exact: the "Name" key is
bound after extracting a tag list holding it with a non-empty value. -/
theorem C10_extractTags_exact_witness :
    ∃ ts, (some [ProviderTag.mk (some "Name") (some "web"),
        ProviderTag.mk (some "Env") (some "")] :
          Option (List ProviderTag)) = some ts ∧
      ∃ t ∈ ts, t.Key = some "Name" ∧ "Name" ≠ "" ∧
        ∃ v, t.Value = some v ∧ v ≠ "" :=
  (C10_extractTags_exact
    (some [ProviderTag.mk (some "Name") (some "web"),
      ProviderTag.mk (some "Env") (some "")]) "Name").1.mp (by decide)

/-- C3 counterexample: the claim says resources normalized for distinct
accounts never share an identifier. With the same provider-native
InstanceId in two accounts, collectEC2Resources produces two resources
with distinct accountId but the same id, so the claim is false. -/
theorem C3_counterexample :
    ("111111111111" : String) ≠ "222222222222" ∧
      collectEC2Normalize "111111111111" "us-east-1" 0 inst0 = some resN1 ∧
      collectEC2Normalize "222222222222" "us-east-1" 0 inst0 = some resN2 ∧
      resN1.accountId ≠ resN2.accountId ∧ resN1.id = resN2.id := by
  refine ⟨by decide, by decide, by decide, by decide, rfl⟩

/-- C3 amended: the Normalizer does not construct the identifier from
(type, region, accountId, native id); it uses the provider-native
identifier unchanged (InstanceId for ec2, DBInstanceIdentifier for rds),
so two accounts containing entities with equal native identifiers yield
exactly the same resource identifier. -/
theorem C3_amended :
    (∀ (a1 a2 g1 g2 : String) (n1 n2 : Nat) (inst : EC2Instance)
        (r1 r2 : Resource),
      collectEC2Normalize a1 g1 n1 inst = some r1 →
      collectEC2Normalize a2 g2 n2 inst = some r2 →
      r1.id = r2.id ∧ inst.InstanceId = some r1.id) ∧
    (∀ (a1 a2 g1 g2 : String) (n1 n2 : Nat) (db : DBInstance)
        (r1 r2 : Resource),
      collectRDSNormalize a1 g1 n1 db = some r1 →
      collectRDSNormalize a2 g2 n2 db = some r2 →
      r1.id = r2.id ∧ db.DBInstanceIdentifier = some r1.id) := by
  constructor
  · intro a1 a2 g1 g2 n1 n2 inst r1 r2 h1 h2
    cases hI : inst.InstanceId with
    | none => rw [collectEC2Normalize, hI] at h1; exact absurd h1 (by simp)
    | some iid =>
        rw [collectEC2Normalize, hI] at h1 h2
        simp only [Option.some.injEq] at h1 h2
        subst h1
        subst h2
        exact ⟨rfl, rfl⟩
  · intro a1 a2 g1 g2 n1 n2 db r1 r2 h1 h2
    cases hI : db.DBInstanceIdentifier with
    | none => rw [collectRDSNormalize, hI] at h1; exact absurd h1 (by simp)
    | some did =>
        rw [collectRDSNormalize, hI] at h1 h2
        simp only [Option.some.injEq] at h1 h2
        subst h1
        subst h2
        exact ⟨rfl, rfl⟩

/-- Concrete instantiation of C3_amended at inst0 and two distinct
accounts. -/
theorem C3_amended_witness :
    resN1.id = resN2.id ∧ inst0.InstanceId = some resN1.id :=
  C3_amended.1 "111111111111" "222222222222" "us-east-1" "us-east-1" 0 0
    inst0 resN1 resN2 (by decide) (by decide)

/-- C8 counterexample: the claim says every failing registered fetcher is
captured as exactly one Collection Error in the snapshot. The ecs fetcher
(collectECSResources) swallows its failure in an internal try/catch, so a
failing ecs invocation leaves the snapshot's error list empty. -/
theorem C8_counterexample :
    (collectAllResources "111111111111" "us-east-1" 0
        (Except.ok []) (Except.ok []) (Except.ok [])
        (SwallowedFetch.mk [] (some "boom"))
        (SwallowedFetch.mk [] none)
        (SwallowedFetch.mk [] none)).errors = [] ∧
      (SwallowedFetch.mk ([] : List Resource)
          (some "boom")).failure.isSome = true := by
  exact ⟨rfl, rfl⟩

/-- C8 amended: a failing ec2, rds or s3 fetch is captured as exactly one
Collection Error and contributes an empty list; the ecs, eks and vpc
fetchers swallow failures internally, so no Collection Error is ever
recorded for them and they contribute whatever was gathered before the
failure; collectAllResources itself is total and never fails. -/
theorem C8_amended (acc region : String) (ts : Nat)
    (ec2 rds s3 : Except String (List Resource))
    (ecs eks vpc : SwallowedFetch) :
    ((collectAllResources acc region ts ec2 rds s3 ecs eks vpc).errors.filter
        (fun e => e.service == "ec2")).length =
      (match ec2 with | Except.ok _ => 0 | Except.error _ => 1) ∧
    ((collectAllResources acc region ts ec2 rds s3 ecs eks vpc).errors.filter
        (fun e => e.service == "rds")).length =
      (match rds with | Except.ok _ => 0 | Except.error _ => 1) ∧
    ((collectAllResources acc region ts ec2 rds s3 ecs eks vpc).errors.filter
        (fun e => e.service == "s3")).length =
      (match s3 with | Except.ok _ => 0 | Except.error _ => 1) ∧
    (collectAllResources acc region ts ec2 rds s3 ecs eks vpc).errors.filter
        (fun e => e.service == "ecs" || e.service == "eks" ||
          e.service == "vpc") = [] ∧
    (collectAllResources acc region ts ec2 rds s3 ecs eks vpc).ec2 =
      (match ec2 with | Except.ok l => l | Except.error _ => []) ∧
    (collectAllResources acc region ts ec2 rds s3 ecs eks vpc).ecs =
      ecs.gathered ∧
    (collectAllResources acc region ts ec2 rds s3 ecs eks vpc).eks =
      eks.gathered ∧
    (collectAllResources acc region ts ec2 rds s3 ecs eks vpc).vpc =
      vpc.gathered := by
  cases ec2 <;> cases rds <;> cases s3 <;>
    simp [collectAllResources, List.filter_append]

theorem upsertRow_ok_length (store : List Resource) (r : Resource)
    (st2 : List Resource) (h : upsertRow store r = Except.ok st2) :
    store.length ≤ st2.length := by
  unfold upsertRow at h
  by_cases hid : store.any (fun x => x.id == r.id)
  · rw [if_pos hid] at h
    by_cases harn : store.any (fun x => x.id != r.id && x.arn == r.arn)
    · rw [if_pos harn] at h
      exact absurd h (by simp)
    · rw [if_neg harn] at h
      simp only [Except.ok.injEq] at h
      subst h
      simp
  · rw [if_neg hid] at h
    by_cases harn : store.any (fun x => x.arn == r.arn)
    · rw [if_pos harn] at h
      exact absurd h (by simp)
    · rw [if_neg harn] at h
      simp only [Except.ok.injEq] at h
      subst h
      simp

theorem upsertRow_ok_mem (store : List Resource) (y : Resource)
    (st2 : List Resource) (r : Resource) (hr : r ∈ store)
    (hid : y.id ≠ r.id) (h : upsertRow store y = Except.ok st2) :
    r ∈ st2 := by
  unfold upsertRow at h
  by_cases h1 : store.any (fun x => x.id == y.id)
  · rw [if_pos h1] at h
    by_cases h2 : store.any (fun x => x.id != y.id && x.arn == y.arn)
    · rw [if_pos h2] at h
      exact absurd h (by simp)
    · rw [if_neg h2] at h
      simp only [Except.ok.injEq] at h
      subst h
      apply List.mem_map.mpr
      refine ⟨r, hr, ?_⟩
      have hne : (r.id == y.id) = false :=
        beq_eq_false_iff_ne.mpr (fun hc => hid hc.symm)
      simp [hne]
  · rw [if_neg h1] at h
    by_cases h2 : store.any (fun x => x.arn == y.arn)
    · rw [if_pos h2] at h
      exact absurd h (by simp)
    · rw [if_neg h2] at h
      simp only [Except.ok.injEq] at h
      subst h
      exact List.mem_append_left _ hr

theorem storeLoop_length :
    ∀ (rs store : List Resource) (now : Nat),
      store.length ≤ (storeLoop rs store now).1.length := by
  intro rs
  induction rs with
  | nil => intro store now; exact Nat.le_refl _
  | cons y rest ih =>
      intro store now
      simp only [storeLoop]
      cases h : upsertRow store (withLastUpdated y now) with
      | ok st2 =>
          exact Nat.le_trans (upsertRow_ok_length store _ st2 h)
            (ih st2 now)
      | error e => exact Nat.le_refl _

theorem storeLoop_mem :
    ∀ (rs store : List Resource) (now : Nat) (r : Resource),
      r ∈ store → (∀ y ∈ rs, y.id ≠ r.id) →
      r ∈ (storeLoop rs store now).1 := by
  intro rs
  induction rs with
  | nil => intro store now r hr _; exact hr
  | cons y rest ih =>
      intro store now r hr hids
      simp only [storeLoop]
      cases h : upsertRow store (withLastUpdated y now) with
      | ok st2 =>
          have hyid : (withLastUpdated y now).id ≠ r.id :=
            hids y (List.mem_cons_self y rest)
          exact ih st2 now r
            (upsertRow_ok_mem store (withLastUpdated y now) st2 r hr
              hyid h)
            (fun z hz => hids z (List.mem_cons_of_mem y hz))
      | error e => exact hr

/-- C1 counterexample: a persisted ec2 row of the snapshot's account whose
id is absent from the snapshot's successfully fetched ec2 list survives
the merge untouched (and no error is thrown), so the claimed stale
removal does not happen in storeResourceCollection. -/
theorem C1_counterexample :
    snapEc2Ok.errors = [] ∧
      rowIB.accountId = snapEc2Ok.accountId ∧
      rowIB.resourceType = "ec2" ∧
      snapEc2Ok.ec2.all (fun r => r.id != rowIB.id) = true ∧
      rowIB ∈ (storeResourceCollection [rowIB] snapEc2Ok 5).1 ∧
      (storeResourceCollection [rowIB] snapEc2Ok 5).2 = none := by
  refine ⟨rfl, rfl, rfl, by decide, by decide, by decide⟩

/-- C1 amended: storeResourceCollection only upserts and never deletes:
the persisted row count never decreases, and a previously persisted row
whose primary key id matches no resource of the snapshot — in particular
a stale resource the snapshot no longer reports — survives every merge
verbatim, also when its type was fetched successfully. The only stale
removal in the repository is the account-scoped replacement of
simple-server's refresh, which removes every previously persisted
resource of the refreshed account not re-collected in this cycle,
regardless of resource type and of per-type failures. -/
theorem C1_amended :
    (∀ (store : List Resource) (c : ResourceCollection) (now : Nat),
      store.length ≤ (storeResourceCollection store c now).1.length) ∧
    (∀ (store : List Resource) (c : ResourceCollection) (now : Nat)
        (r : Resource), r ∈ store →
      ((allResources c).all (fun s => s.id != r.id)) = true →
      r ∈ (storeResourceCollection store c now).1) ∧
    (∀ (rs newRs : List Resource) (a : String) (x : Resource),
      x ∈ rs → x.accountId = a → x ∉ newRs →
      x ∉ ssMergeAccount rs a newRs) := by
  refine ⟨?_, ?_, ?_⟩
  · intro store c now
    exact storeLoop_length (allResources c) store now
  · intro store c now r hr hall
    apply storeLoop_mem (allResources c) store now r hr
    intro y hy
    have := List.all_eq_true.mp hall y hy
    simpa [bne_iff_ne] using this
  · intro rs newRs a x hx ha hnew hmem
    rcases List.mem_append.mp hmem with hfil | hnewMem
    · have := List.of_mem_filter hfil
      simp only [bne_iff_ne, ne_eq, decide_eq_true_eq] at this
      exact this ha
    · exact hnew hnewMem

/-- Concrete instantiation of C1_amended: the stale row survives the
storeResourceCollection merge, and simple-server's refresh removes it
account-wide. -/
theorem C1_amended_witness :
    rowIB ∈ (storeResourceCollection [rowIB] snapEc2Ok 5).1 ∧
      rowIB ∉ ssMergeAccount [rowIB] "111111111111" [] :=
  ⟨C1_amended.2.1 [rowIB] snapEc2Ok 5 rowIB (by decide) (by decide),
    C1_amended.2.2 [rowIB] [] "111111111111" rowIB (by decide) rfl
      (by decide)⟩

/-- C2 counterexample: with a Collection Error recorded for rds, the
persisted (account, rds) subset is nevertheless changed by the merge:
the successfully fetched ec2 list carries a resource whose id equals the
persisted rds row's primary key, so the upsert updates that row in place
(no error is thrown), and no rds row remains. -/
theorem C2_counterexample :
    snapRdsFail.errors.any (fun e => e.service == "rds") = true ∧
      ([rowDB].filter (fun r =>
        r.accountId == snapRdsFail.accountId &&
          r.resourceType == "rds")) = [rowDB] ∧
      ((storeResourceCollection [rowDB] snapRdsFail 9).1.filter (fun r =>
        r.accountId == snapRdsFail.accountId &&
          r.resourceType == "rds")) = [] ∧
      (storeResourceCollection [rowDB] snapRdsFail 9).2 = none := by
  refine ⟨rfl, by decide, by decide, by decide⟩

/-- C2 amended: for a resource type that failed in the cycle, a
previously persisted row of that account and type survives the merge
verbatim provided no resource in the snapshot's successfully fetched
lists carries its primary key id; since identifiers are provider-native,
a cross-type id collision instead updates the row in place despite the
type's Collection Error (and an arn collision throws the
unique-constraint error, aborting the loop without deleting anything). -/
theorem C2_amended (store : List Resource) (c : ResourceCollection)
    (now : Nat) (r : Resource) (hmem : r ∈ store)
    (_hacct : r.accountId = c.accountId)
    (_herr : c.errors.any (fun e => e.service == r.resourceType) = true)
    (hnc : (allResources c).all (fun s => s.id != r.id) = true) :
    r ∈ (storeResourceCollection store c now).1 := by
  apply storeLoop_mem (allResources c) store now r hmem
  intro y hy
  have := List.all_eq_true.mp hnc y hy
  simpa [bne_iff_ne] using this

/-- Concrete instantiation of C2_amended: a persisted rds row whose id
collides with nothing in the snapshot is untouched by a merge whose rds
fetch failed. -/
theorem C2_amended_witness :
    rowDB ∈ (storeResourceCollection [rowDB] snapRdsFailSafe 9).1 :=
  C2_amended [rowDB] snapRdsFailSafe 9 rowDB (by decide) rfl (by decide)
    (by decide)

theorem sublist_filter_chain {l m : List Resource}
    (h : List.Sublist m l) (p : Resource → Bool) :
    List.Sublist (m.filter p) l :=
  List.Sublist.trans (List.filter_sublist m) h

theorem ssApplyFilters_sublist
    (accountIds regions resourceTypes : Option (List String))
    (search : Option String) (rs : List Resource) :
    List.Sublist (ssApplyFilters accountIds regions resourceTypes search rs)
      rs := by
  cases accountIds <;> cases regions <;> cases resourceTypes <;>
    cases search <;>
    simp only [ssApplyFilters] <;>
    repeat
      first
      | exact List.Sublist.refl _
      | apply sublist_filter_chain

/-- C5 counterexample: the claim says every returned page is ordered by
last-updated time descending. simple-server's GET /api/resources applies
no ordering at all: with the persisted list holding resA (updated at 1)
before resB (updated at 2), the returned page keeps that ascending order,
so its elements are not pairwise in descending last-updated order. -/
theorem C5_counterexample :
    (ssGetResources none none none none "50" "0" [resA, resB]).resources =
        [resA, resB] ∧
      resA.lastUpdated < resB.lastUpdated ∧
      ¬ List.Pairwise (fun a b => b.lastUpdated ≤ a.lastUpdated)
        (ssGetResources none none none none "50" "0"
          [resA, resB]).resources := by
  refine ⟨by decide, by decide, ?_⟩
  have hres : (ssGetResources none none none none "50" "0"
      [resA, resB]).resources = [resA, resB] := by decide
  rw [hres]
  decide

/-- C5 amended: the page simple-server's query returns is an
order-preserving sublist of the persisted resource list (filter followed
by slice); no reordering by last-updated time or identifier occurs. -/
theorem C5_amended
    (accountIds regions resourceTypes : Option (List String))
    (search : Option String) (limitStr offsetStr : String)
    (rs : List Resource) :
    List.Sublist
      (ssGetResources accountIds regions resourceTypes search limitStr
        offsetStr rs).resources rs := by
  unfold ssGetResources jsSlice
  exact List.Sublist.trans (List.drop_sublist _ _)
    (List.Sublist.trans (List.take_sublist _ _)
      (ssApplyFilters_sublist accountIds regions resourceTypes search rs))

/-- C4 counterexample: the claim quantifies over every filter with numeric
limit and offset. With the numeric values offset=10, limit=-20 over three
persisted resources, the code computes hasMore as 3 > 10 + (-20), i.e.
true, while (offset + returned-count) < total is 10 + 0 < 3, i.e. false. -/
theorem C4_counterexample :
    (ssGetResources none none none none "-20" "10" rs3).hasMore = true ∧
      ¬ (10 + (ssGetResources none none none none "-20" "10"
            rs3).resources.length <
          (ssGetResources none none none none "-20" "10" rs3).total) := by
  refine ⟨by decide, by decide⟩

/-- C4 amended: for every filter whose limit and offset parse to
non-negative integers, the hasMore flag equals
(offset + returned-count) < total, where total is the post-filter,
pre-pagination count and returned-count the size of the returned page. -/
theorem C4_amended
    (accountIds regions resourceTypes : Option (List String))
    (search : Option String) (limitStr offsetStr : String)
    (rs : List Resource) (l o : Nat)
    (hl : jsParseInt limitStr = some (l : Int))
    (ho : jsParseInt offsetStr = some (o : Int)) :
    (ssGetResources accountIds regions resourceTypes search limitStr
        offsetStr rs).hasMore =
      decide (o + (ssGetResources accountIds regions resourceTypes search
          limitStr offsetStr rs).resources.length <
        (ssGetResources accountIds regions resourceTypes search limitStr
          offsetStr rs).total) := by
  unfold ssGetResources
  rw [hl, ho]
  have hadd : (o : Int) + (l : Int) = ((o + l : Nat) : Int) := by
    push_cast
    ring
  have h1 : ¬ ((o : Int) < 0) := Int.not_lt.mpr (Int.natCast_nonneg o)
  have h2 : ¬ (((o + l : Nat) : Int) < 0) :=
    Int.not_lt.mpr (Int.natCast_nonneg (o + l))
  simp only [jsAdd, hadd, jsSlice, jsSliceIndex, if_neg h1, if_neg h2,
    List.length_drop, List.length_take, Int.toNat_natCast]
  rw [decide_eq_decide]
  constructor
  · intro h
    have : (o + l : Nat) <
        (ssApplyFilters accountIds regions resourceTypes search
          rs).length := by
      exact_mod_cast h
    omega
  · intro h
    have : (o + l : Nat) <
        (ssApplyFilters accountIds regions resourceTypes search
          rs).length := by
      omega
    exact_mod_cast this

/-- Concrete instantiation of C4_amended at limit 50, offset 0. -/
theorem C4_amended_witness :
    (ssGetResources none none none none "50" "0" rs3).hasMore =
      decide (0 + (ssGetResources none none none none "50" "0"
          rs3).resources.length <
        (ssGetResources none none none none "50" "0" rs3).total) :=
  C4_amended none none none none "50" "0" rs3 50 0 (by decide) (by decide)

/-- C9 counterexample: the claim says a structurally invalid filter (here
the non-numeric limit "abc") fails with a validation error and no partial
query execution occurs. The endpoint has no validation or error branch:
it answers with success = true, has executed the filter chain (total is
computed as 1), and returns a silently empty page. -/
theorem C9_counterexample :
    (ssGetResources none none none none "abc" "0" [resA]).success = true ∧
      (ssGetResources none none none none "abc" "0" [resA]).resources =
        [] ∧
      (ssGetResources none none none none "abc" "0" [resA]).total = 1 ∧
      (ssGetResources none none none none "abc" "0" [resA]).hasMore =
        false := by
  refine ⟨rfl, by decide, by decide, by decide⟩

/-- C9 amended: a non-numeric limit produces no validation error and no
failure: parseInt yields NaN, the NaN-propagating slice bound collapses
the page to empty, hasMore is false, and the response still reports
success with the full post-filter total, the filters having executed. -/
theorem C9_amended
    (accountIds regions resourceTypes : Option (List String))
    (search : Option String) (limitStr offsetStr : String)
    (rs : List Resource) (hl : jsParseInt limitStr = none) :
    (ssGetResources accountIds regions resourceTypes search limitStr
        offsetStr rs).success = true ∧
      (ssGetResources accountIds regions resourceTypes search limitStr
        offsetStr rs).resources = [] ∧
      (ssGetResources accountIds regions resourceTypes search limitStr
        offsetStr rs).hasMore = false ∧
      (ssGetResources accountIds regions resourceTypes search limitStr
        offsetStr rs).total =
        (ssApplyFilters accountIds regions resourceTypes search
          rs).length := by
  unfold ssGetResources
  rw [hl]
  cases ho : jsParseInt offsetStr with
  | none => simp [jsAdd, jsSlice, jsSliceIndex]
  | some v => simp [jsAdd, jsSlice, jsSliceIndex]

/-- Concrete instantiation of C9_amended at the non-numeric limit "abc". -/
theorem C9_amended_witness :
    (ssGetResources none none none none "abc" "7" [resA]).success = true ∧
      (ssGetResources none none none none "abc" "7" [resA]).resources =
        [] ∧
      (ssGetResources none none none none "abc" "7" [resA]).hasMore =
        false ∧
      (ssGetResources none none none none "abc" "7" [resA]).total =
        (ssApplyFilters none none none none [resA]).length :=
  C9_amended none none none none "abc" "7" [resA] (by decide)

/-- C6: filters combine with AND across fields and OR within a field: the
rows matching the whereClause for accountIds=[a1] and regions=[r1]
together are exactly the intersection of the rows matching accountIds
alone with the rows matching regions alone. The stated set is the
post-filter match set that the query counts and pages over. -/
theorem C6_filter_and_or_law (rs : List Resource) (a1 r1 : String) :
    filterResources
        (FilterOptions.mk (some [a1]) (some [r1]) none none none) rs =
      List.inter
        (filterResources
          (FilterOptions.mk (some [a1]) none none none none) rs)
        (filterResources
          (FilterOptions.mk none (some [r1]) none none none) rs) := by
  unfold List.inter filterResources
  rw [List.filter_filter]
  apply List.filter_congr
  intro x hx
  rw [Bool.eq_iff_iff]
  simp only [matchesWhere, inField, searchMatch, Bool.and_true,
    Bool.and_eq_true, List.elem_iff, List.mem_filter, true_and, and_true]
  constructor
  · rintro ⟨h1, h2⟩
    exact ⟨⟨hx, h2⟩, h1⟩
  · rintro ⟨⟨hmem, h2⟩, h1⟩
    exact ⟨h1, h2⟩

/-- C7 counterexample: the claim says summarize selects exactly the subset
selected by the Query Engine's filter semantics for the same filter. For
a filter populating regions, the summary endpoint reads only accountIds
and ignores regions: over one us-east-1 and one us-west-2 resource, the
summary counts 2 resources while the Query Engine's filter matches 1. -/
theorem C7_counterexample :
    (summaryForFilter f7 [resA, resW]).total = 2 ∧
      (filterResources f7 [resA, resW]).length = 1 := by
  refine ⟨rfl, by decide⟩

theorem comp_key_objIncr (k2 k : String) :
    ((fun p : String × Nat => p.1 == k) ∘
        fun p => if p.1 == k2 then (p.1, p.2 + 1) else p) =
      fun p : String × Nat => p.1 == k := by
  funext p
  simp only [Function.comp]
  by_cases h : (p.1 == k2) = true
  · rw [if_pos h]
  · rw [if_neg h]

theorem countGet_objIncr (m : List (String × Nat)) (k k2 : String) :
    countGet (objIncr m k2) k =
      countGet m k + (if k = k2 then 1 else 0) := by
  unfold objIncr countGet
  by_cases hany : m.any (fun p => p.1 == k2)
  · rw [if_pos hany, List.find?_map, comp_key_objIncr]
    cases hfind : m.find? (fun p => p.1 == k) with
    | none =>
        by_cases hk : k = k2
        · subst hk
          rw [List.find?_eq_none] at hfind
          rw [List.any_eq_true] at hany
          obtain ⟨x, hx, hpx⟩ := hany
          exact absurd hpx (hfind x hx)
        · simp [hk]
    | some q =>
        have hq1 : (q.1 == k) = true := by
          simpa using List.find?_some hfind
        by_cases hk : k = k2
        · subst hk
          have hqe : q.1 = k := eq_of_beq hq1
          simp [hqe]
        · have hqe : q.1 = k := eq_of_beq hq1
          simp [hqe, hk]
  · rw [if_neg hany, List.find?_append]
    by_cases hk : k = k2
    · subst hk
      have hfn : m.find? (fun p => p.1 == k) = none := by
        rw [List.find?_eq_none]
        intro x hx
        have hanyf : m.any (fun p => p.1 == k) = false :=
          Bool.eq_false_iff.mpr hany
        exact List.any_eq_false.mp hanyf x hx
      rw [hfn]
      simp [List.find?]
    · have hne : ((k2 : String) == k) = false :=
        beq_eq_false_iff_ne.mpr (fun h => hk h.symm)
      cases hfind : m.find? (fun p => p.1 == k) with
      | some q => simp [Option.or, hk]
      | none => simp [Option.or, List.find?, hne, hk]

theorem countGet_countBy_fold (key : Resource → String)
    (rs : List Resource) (m : List (String × Nat)) (k : String) :
    countGet (rs.foldl (fun m r => objIncr m (key r)) m) k =
      countGet m k + (rs.filter (fun r => key r == k)).length := by
  induction rs generalizing m with
  | nil => simp
  | cons r rest ih =>
      simp only [List.foldl_cons]
      rw [ih, countGet_objIncr]
      by_cases hk : key r == k
      · have : k = key r := (eq_of_beq hk).symm
        simp [List.filter_cons, hk, this]
        omega
      · have : ¬ (k = key r) := fun h => by
          rw [h] at hk
          exact hk (beq_self_eq_true _)
        simp [List.filter_cons, hk, this]

theorem countGet_countBy (key : Resource → String)
    (rs : List Resource) (k : String) :
    countGet (countBy key rs) k =
      (rs.filter (fun r => key r == k)).length := by
  unfold countBy
  rw [countGet_countBy_fold]
  simp [countGet]

theorem ssSummary_subset_eq (accIds : Option (List String))
    (rs : List Resource) :
    (match accIds with
      | none => rs
      | some xs => rs.filter (fun r => xs.contains r.accountId)) =
      filterResources (FilterOptions.mk accIds none none none none) rs := by
  cases accIds with
  | none =>
      show rs = filterResources
        (FilterOptions.mk none none none none none) rs
      symm
      unfold filterResources
      rw [List.filter_eq_self]
      intro a ha
      simp [matchesWhere, inField, searchMatch]
  | some xs =>
      show List.filter (fun r => xs.contains r.accountId) rs =
        filterResources
          (FilterOptions.mk (some xs) none none none none) rs
      unfold filterResources
      apply List.filter_congr
      intro a ha
      simp [matchesWhere, inField, searchMatch]

/-- C7 amended: summarize applies only the accountIds field of the filter
(regions, resourceTypes, statuses and search are ignored). For a filter
populating only accountIds it selects exactly the subset the Query
Engine's filter semantics select, and reports one count per distinct
literal resource-type, status, and region string of that subset. -/
theorem C7_amended (rs : List Resource) (accIds : Option (List String)) :
    (summaryForFilter (FilterOptions.mk accIds none none none none)
        rs).total =
      (filterResources (FilterOptions.mk accIds none none none none)
        rs).length ∧
    (∀ t, countGet (summaryForFilter
          (FilterOptions.mk accIds none none none none) rs).byType t =
        ((filterResources (FilterOptions.mk accIds none none none none)
          rs).filter (fun r => r.resourceType == t)).length) ∧
    (∀ s, countGet (summaryForFilter
          (FilterOptions.mk accIds none none none none) rs).byStatus s =
        ((filterResources (FilterOptions.mk accIds none none none none)
          rs).filter (fun r => r.status == s)).length) ∧
    (∀ g, countGet (summaryForFilter
          (FilterOptions.mk accIds none none none none) rs).byRegion g =
        ((filterResources (FilterOptions.mk accIds none none none none)
          rs).filter (fun r => r.region == g)).length) := by
  have hsub := ssSummary_subset_eq accIds rs
  simp only [summaryForFilter, ssGetSummary]
  rw [hsub]
  exact ⟨rfl, fun t => countGet_countBy (fun r => r.resourceType) _ t,
    fun s => countGet_countBy (fun r => r.status) _ s,
    fun g => countGet_countBy (fun r => r.region) _ g⟩
